import Mathlib

/-!
Shallow embedding of the imgd upload service core (Rust sources:
src/upload.rs, src/webp.rs, src/auth.rs, src/token.rs, src/lib.rs,
src/error.rs), together with theorems settling the frozen claims about it.

Bytes are modelled as `Nat` (values < 256 in practice; no arithmetic that
could overflow is performed on them).  The u64 running size counter uses the
source's `saturating_add` semantics made explicit.  Filesystem and clock
effects are modelled by explicit state passing: an environment record carries
the outcomes the operating system would produce (fault injection), and a
small filesystem state records the stored objects and the staging temp file.
The SHA-256 digest and its hex rendering come from external crates (sha2,
hex); they are modelled as an abstract function `sha256hex` carried in the
environment, over which all theorems are universally quantified.
-/

/-- Error taxonomy of src/error.rs (enum AppError). -/
inductive AppError where
  | Unauthorized
  | UnsupportedMediaType
  | FileTooLarge
  | BadRequest
  | TooManyRequests
  | Internal
deriving DecidableEq, Repr

/-- Success payload of src/upload.rs (struct UploadResponse). -/
structure UploadResponse where
  url : String
  path : String
  sha256 : String
  size : Nat
deriving DecidableEq, Repr

instance {ε α : Type} [DecidableEq ε] [DecidableEq α] :
    DecidableEq (Except ε α) := fun a b =>
  match a, b with
  | .ok x, .ok y =>
    if h : x = y then .isTrue (by rw [h])
    else .isFalse (fun hc => by cases hc; exact h rfl)
  | .ok _, .error _ => .isFalse (fun hc => by cases hc)
  | .error _, .ok _ => .isFalse (fun hc => by cases hc)
  | .error x, .error y =>
    if h : x = y then .isTrue (by rw [h])
    else .isFalse (fun hc => by cases hc; exact h rfl)

/-! ## Content validator (src/webp.rs) -/

/-- Split a character list on a separator character; always at least one
(possibly empty) group, as Rust str split and Lean String.splitOn do. -/
def splitOnChar (sep : Char) : List Char → List (List Char)
  | [] => [[]]
  | c :: rest =>
    match splitOnChar sep rest with
    | [] => [[]]
    | g :: gs => if c = sep then [] :: g :: gs else (c :: g) :: gs

/-- Final path component, as Rust std Path file_name: components of the path
with empty and "." segments normalised away; the last component, unless it
is "..". -/
def rustFileName (s : String) : Option (List Char) :=
  let comps := (splitOnChar '/' s.data).filter
    (fun c => decide (c ≠ [] ∧ c ≠ ['.']))
  match comps.getLast? with
  | none => none
  | some last => if last = ['.', '.'] then none else some last

/-- Extension as Rust std Path extension: the part of the file name after
the last dot, none when there is no dot or when the only dot is the leading
character of the file name. -/
def rustExtension (s : String) : Option (List Char) :=
  (rustFileName s).bind fun f =>
    match splitOnChar '.' f with
    | [] => none
    | [_] => none
    | [[], _] => none
    | parts => parts.getLast?

/-- ASCII lowercasing of one character, as Rust eq_ignore_ascii_case
compares. -/
def toLowerAscii (c : Char) : Char :=
  if 'A' ≤ c ∧ c ≤ 'Z' then Char.ofNat (c.toNat + 32) else c

/-- src/webp.rs has_webp_extension: the declared filename's extension equals
"webp" up to ASCII case. -/
def has_webp_extension (filename : String) : Bool :=
  match rustExtension filename with
  | some e => decide (e.map toLowerAscii = ['w', 'e', 'b', 'p'])
  | none => false

/-- Byte string "RIFF". -/
def riffTag : List Nat := [82, 73, 70, 70]

/-- Byte string "WEBP". -/
def webpTag : List Nat := [87, 69, 66, 80]

/-- src/webp.rs has_webp_signature: at least 12 bytes, bytes 0..4 = "RIFF",
bytes 8..12 = "WEBP". -/
def has_webp_signature (header : List Nat) : Bool :=
  decide (header.length ≥ 12) && header.take 4 = riffTag
    && (header.drop 8).take 4 = webpTag

/-! ## Ingestion pipeline (src/upload.rs) -/

/-- u64 saturating_add made explicit on Nat. -/
def saturAdd64 (a b : Nat) : Nat := min (a + b) (2 ^ 64 - 1)

/-- Cumulative size of a chunk list under the handler's running
saturating addition. -/
def totalSat (chunks : List (List Nat)) : Nat :=
  chunks.foldl (fun s c => saturAdd64 s c.length) 0

/-- One multipart part as the handler observes it: its form field name, its
declared filename, the body chunks it yields, and whether the stream ends in
a multipart read error instead of a clean end. -/
structure MultipartField where
  name : Option String
  filename : Option String
  chunks : List (List Nat)
  streamErr : Bool

/-- Outcome of the streaming loop: an error (the temp file is removed by the
caller before returning) or the accumulated size, 12-byte header buffer and
staged bytes. -/
inductive LoopResult where
  | fail (e : AppError)
  | done (size : Nat) (header : List Nat) (staged : List Nat)
deriving DecidableEq, Repr

/-- The chunk loop of upload_handler: per chunk, add its length to the
running size with saturating addition and fail FileTooLarge the moment the
total exceeds the cap; otherwise capture the first 12 bytes into the header
buffer, append the chunk to the temp file (a write failure is Internal), and
feed it to the hasher.  A multipart read error after the listed chunks is
BadRequest.  writeFailAt injects a write_all failure at the given chunk
index. -/
def streamLoop (maxBytes : Nat) (writeFailAt : Option Nat) :
    List (List Nat) → Bool → Nat → Nat → List Nat → List Nat → LoopResult
  | [], false, _, size, header, staged => .done size header staged
  | [], true, _, _, _, _ => .fail .BadRequest
  | chunk :: rest, serr, i, size, header, staged =>
    let size' := saturAdd64 size chunk.length
    if size' > maxBytes then .fail .FileTooLarge
    else
      let header' := header ++ chunk.take (12 - header.length)
      if writeFailAt = some i then .fail .Internal
      else streamLoop maxBytes writeFailAt rest serr (i + 1) size' header'
        (staged ++ chunk)

/-- Outcome the OS gives the final rename of the temp file onto the
destination path. -/
inductive RenameOutcome where
  | renamed
  | alreadyExists
  | otherErr
deriving DecidableEq, Repr

/-- Environment of one request: configuration, the UTC calendar date read at
commit time, the abstract digest function, and the outcomes of the fallible
filesystem calls. -/
structure UploadEnv where
  maxUploadBytes : Nat
  publicBaseUrl : String
  year : Nat
  month : Nat
  sha256hex : List Nat → String
  tmpDirOk : Bool
  createNewOk : Bool
  writeFailAt : Option Nat
  flushOk : Bool
  mkdirFinalOk : Bool
  existsErr : Bool
  rename : RenameOutcome
  removeOk : Bool

/-- Filesystem state: stored objects keyed by relative path, and whether this
request's staging temp file currently exists. -/
structure Fs where
  files : String → Option (List Nat)
  tmpExists : Bool

/-- Point update of the stored-object map. -/
def Fs.store (fs : Fs) (p : String) (b : List Nat) : Fs :=
  { fs with files := fun q => if q = p then some b else fs.files q }

/-- Best-effort removal of the temp file (the source ignores the result of
fs remove_file; removeOk injects whether the OS-level removal succeeds). -/
def removeTmp (removeOk : Bool) (fs : Fs) : Fs :=
  if removeOk then { fs with tmpExists := false } else fs

/-- Rust str trim_end_matches with pattern a slash: drop every trailing
slash. -/
def trimEndSlashes (s : String) : String :=
  String.mk ((s.data.reverse.dropWhile (· = '/')).reverse)

/-- Rust format with zero padding to the given width. -/
def pad0 (w n : Nat) : String :=
  let s := toString n
  String.mk (List.replicate (w - s.length) '0') ++ s

/-- Relative path derived at commit: "/" year4 "/" month2 "/" sha ".webp". -/
def relativePath (year month : Nat) (sha : String) : String :=
  "/" ++ pad0 4 year ++ "/" ++ pad0 2 month ++ "/" ++ sha ++ ".webp"

/-- Success response: url is the public base URL with trailing slashes
trimmed, concatenated with the relative path. -/
def mkResponse (env : UploadEnv) (rel sha : String) (size : Nat) :
    UploadResponse :=
  { url := trimEndSlashes env.publicBaseUrl ++ rel
    path := rel, sha256 := sha, size := size }

/-- Processing of the first multipart field, mirroring the loop body of
upload_handler line by line: field name check, filename presence, extension
check, temp dir creation, exclusive temp file creation, the chunk loop,
flush, signature check, digest and date, final dir creation, existence
check, and the commit protocol. -/
def processField (env : UploadEnv) (field : MultipartField) (fs : Fs) :
    Except AppError UploadResponse × Fs :=
  if field.name ≠ some "file" then (.error .BadRequest, fs)
  else match field.filename with
  | none => (.error .BadRequest, fs)
  | some filename =>
    if ¬ has_webp_extension filename then (.error .UnsupportedMediaType, fs)
    else if ¬ env.tmpDirOk then (.error .Internal, fs)
    else if ¬ env.createNewOk then (.error .Internal, fs)
    else
      let fs := { fs with tmpExists := true }
      match streamLoop env.maxUploadBytes env.writeFailAt field.chunks
        field.streamErr 0 0 [] [] with
      | .fail e => (.error e, removeTmp env.removeOk fs)
      | .done size header staged =>
        if ¬ env.flushOk then (.error .Internal, removeTmp env.removeOk fs)
        else if ¬ has_webp_signature header then
          (.error .UnsupportedMediaType, removeTmp env.removeOk fs)
        else
          let sha := env.sha256hex staged
          let rel := relativePath env.year env.month sha
          if ¬ env.mkdirFinalOk then
            (.error .Internal, removeTmp env.removeOk fs)
          else if env.existsErr then
            (.error .Internal, removeTmp env.removeOk fs)
          else if (fs.files rel).isSome then
            (.ok (mkResponse env rel sha size), removeTmp env.removeOk fs)
          else match env.rename with
            | .renamed =>
              (.ok (mkResponse env rel sha size),
                { (fs.store rel staged) with tmpExists := false })
            | .alreadyExists =>
              (.ok (mkResponse env rel sha size), removeTmp env.removeOk fs)
            | .otherErr => (.error .Internal, removeTmp env.removeOk fs)

/-- upload_handler: the while-let loop over multipart fields.  Every branch
of the loop body returns, so only the first field is ever examined; a body
with no field at all is BadRequest. -/
def uploadHandler (env : UploadEnv) (fields : List MultipartField) (fs : Fs) :
    Except AppError UploadResponse × Fs :=
  match fields with
  | [] => (.error .BadRequest, fs)
  | f :: _ => processField env f fs

/-! ## Credential authority (src/auth.rs, src/token.rs) -/

/-- Identity attached to the request on successful authorization
(struct AuthorizedToken). -/
structure AuthorizedToken where
  name : String
  tokenId : String
  rateLimitPerMinute : Option Nat
deriving DecidableEq, Repr

/-- One loaded credential record (struct TokenPolicy); expires_at is a UTC
timestamp modelled as Nat. -/
structure TokenPolicy where
  name : String
  tokenId : String
  expiresAt : Option Nat
  rateLimitPerMinute : Option Nat
deriving DecidableEq, Repr

/-- The immutable loaded credential set (struct TokenStore): an association
from raw token to policy. -/
structure TokenStore where
  tokens : List (String × TokenPolicy)

/-- HashMap get by raw token. -/
def TokenStore.lookup (store : TokenStore) (raw : String) :
    Option TokenPolicy :=
  (store.tokens.find? (fun kv => kv.1 = raw)).map (·.2)

/-- TokenStore::authorize: exact-match lookup, then reject when a present
expires_at is strictly before now (Utc::now() > exp); on success return the
identity with its rate-limit override. -/
def TokenStore.authorize (store : TokenStore) (now : Nat) (raw : String) :
    Option AuthorizedToken :=
  match store.lookup raw with
  | none => none
  | some policy =>
    match policy.expiresAt with
    | some exp =>
      if now > exp then none
      else some ⟨policy.name, policy.tokenId, policy.rateLimitPerMinute⟩
    | none => some ⟨policy.name, policy.tokenId, policy.rateLimitPerMinute⟩

/-- The two credential-bearing headers of a request; a header that is absent
or not valid visible ASCII (to_str error) is none. -/
structure Headers where
  xUploadToken : Option String
  authorization : Option String

/-- Rust str strip of the "Bearer " scheme marker: when the value starts
with it, the remainder; otherwise nothing. -/
def stripBearer (v : String) : Option String :=
  match v.data with
  | 'B' :: 'e' :: 'a' :: 'r' :: 'e' :: 'r' :: ' ' :: rest =>
    some (String.mk rest)
  | _ => none

/-- src/auth.rs extract_token: the custom x-upload-token header when it holds
a non-empty value; otherwise the Authorization header when non-empty, with
the bearer scheme marker removed and the remainder non-empty. -/
def extract_token (h : Headers) : Option String :=
  match h.xUploadToken.filter (fun v => v ≠ "") with
  | some token => some token
  | none =>
    match h.authorization.filter (fun v => v ≠ "") with
    | some value =>
      match stripBearer value with
      | some token => if token ≠ "" then some token else none
      | none => none
    | none => none

/-- Outcome of the auth middleware: the request proceeds carrying an
identity, or is rejected. -/
inductive AuthOutcome where
  | authorized (t : AuthorizedToken)
  | rejected (e : AppError)
deriving DecidableEq, Repr

/-- src/auth.rs auth_middleware: extract the raw credential, authorize it
against the store; anything else is Unauthorized. -/
def auth_middleware (store : TokenStore) (now : Nat) (h : Headers) :
    AuthOutcome :=
  match extract_token h with
  | some raw =>
    match store.authorize now raw with
    | some t => .authorized t
    | none => .rejected .Unauthorized
  | none => .rejected .Unauthorized

/-! ## Rate gate (src/lib.rs) -/

/-- Rate limiter state: each key's queue of admitted-request timestamps,
oldest first.  Timestamps are Nats (Instant with duration_since as
truncated subtraction). -/
def RLState := String → List Nat

/-- Point update of the rate limiter state. -/
def RLState.set (st : RLState) (k : String) (q : List Nat) : RLState :=
  fun k' => if k' = k then q else st k'

/-- The pruning while-loop of SimpleRateLimiter::check: pop from the front
while the front timestamp is older than the window, stop at the first one
that is not. -/
def pruneQueue (window now : Nat) : List Nat → List Nat
  | [] => []
  | t :: rest =>
    if now - t > window then pruneQueue window now rest else t :: rest

/-- SimpleRateLimiter::check: prune the key's queue, persist the pruned
queue; if the remaining count is at or above the limit, reject without
recording; otherwise record now and admit. -/
def SimpleRateLimiter.check (window : Nat) (st : RLState) (key : String)
    (maxRequests : Nat) (now : Nat) : Bool × RLState :=
  let q := pruneQueue window now (st key)
  if q.length ≥ maxRequests then (false, st.set key q)
  else (true, st.set key (q ++ [now]))

/-- src/lib.rs rate_limit_middleware: check the source-address key against
the global per-minute limit; on rejection answer TooManyRequests.  Then, if
the request carries an identity with a rate-limit override, additionally
check the identity-fingerprint key against the override; on rejection answer
TooManyRequests.  Otherwise the request proceeds. -/
def rate_limit_middleware (window globalLimit : Nat) (st : RLState)
    (ip : String) (auth : Option AuthorizedToken) (now : Nat) :
    Except AppError Unit × RLState :=
  let r1 := SimpleRateLimiter.check window st ("ip:" ++ ip) globalLimit now
  if ¬ r1.1 then (.error .TooManyRequests, r1.2)
  else
    match auth with
    | some a =>
      match a.rateLimitPerMinute with
      | some lim =>
        let r2 := SimpleRateLimiter.check window r1.2
          ("token:" ++ a.tokenId) lim now
        if r2.1 then (.ok (), r2.2) else (.error .TooManyRequests, r2.2)
      | none => (.ok (), r1.2)
    | none => (.ok (), r1.2)

/-! ## Concrete fixtures for witnesses -/

/-- The 16-byte valid-signature fixture of tests/upload.rs: "RIFF", a length
field, "WEBP", "VP8 ". -/
def fixtureBytes : List Nat :=
  [82, 73, 70, 70, 16, 0, 0, 0, 87, 69, 66, 80, 86, 80, 56, 32]

/-- A fault-free environment at a fixed date with a constant stand-in digest
function. -/
def happyEnv : UploadEnv :=
  { maxUploadBytes := 5 * 1024 * 1024
    publicBaseUrl := "https://img.example.com/images"
    year := 2025, month := 10
    sha256hex := fun _ => "abcd"
    tmpDirOk := true, createNewOk := true, writeFailAt := none
    flushOk := true, mkdirFinalOk := true, existsErr := false
    rename := .renamed, removeOk := true }

/-- A well-formed first multipart part carrying the fixture bytes. -/
def okField : MultipartField :=
  { name := some "file", filename := some "ok.webp"
    chunks := [fixtureBytes], streamErr := false }

/-- An empty filesystem with no staging temp file. -/
def emptyFs : Fs := { files := fun _ => none, tmpExists := false }

/-- A two-record credential store: token "live" never expires and carries a
per-minute override of 5; token "old" expired at time 100. -/
def demoStore : TokenStore :=
  { tokens :=
      [("live", { name := "ci", tokenId := "fp-live"
                  expiresAt := none, rateLimitPerMinute := some 5 }),
       ("old", { name := "ex", tokenId := "fp-old"
                 expiresAt := some 100, rateLimitPerMinute := none })] }

/-! ## Helper lemmas -/

theorem saturAdd64_le_cap (a b : Nat) : saturAdd64 a b ≤ 2 ^ 64 - 1 :=
  Nat.min_le_right _ _

theorem le_saturAdd64 (a b : Nat) (h : a ≤ 2 ^ 64 - 1) : a ≤ saturAdd64 a b :=
  Nat.le_min.mpr ⟨Nat.le_add_right a b, h⟩

theorem le_foldSat (l : List (List Nat)) :
    ∀ a : Nat, a ≤ 2 ^ 64 - 1 →
      a ≤ l.foldl (fun s c => saturAdd64 s c.length) a := by
  induction l with
  | nil => intro a _; exact Nat.le_refl a
  | cons c rest ih =>
    intro a ha
    calc a ≤ saturAdd64 a c.length := le_saturAdd64 a c.length ha
      _ ≤ _ := ih (saturAdd64 a c.length) (saturAdd64_le_cap a c.length)

theorem take12_append (A B : List Nat) :
    A.take 12 ++ B.take (12 - (A.take 12).length) = (A ++ B).take 12 := by
  rw [List.take_append_eq_append_take, List.length_take]
  congr 2
  omega

theorem streamLoop_done_inv (maxB : Nat) (wf : Option Nat) :
    ∀ (chunks : List (List Nat)) (serr : Bool) (i size : Nat)
      (staged : List Nat) (size' : Nat) (header' staged' : List Nat),
      streamLoop maxB wf chunks serr i size (staged.take 12) staged
        = .done size' header' staged' →
      staged' = staged ++ chunks.flatten ∧ header' = staged'.take 12 ∧
        size' = chunks.foldl (fun s c => saturAdd64 s c.length) size ∧
        serr = false := by
  intro chunks
  induction chunks with
  | nil =>
    intro serr i size staged size' header' staged' h
    cases serr with
    | false =>
      simp only [streamLoop] at h
      cases h
      simp
    | true => simp [streamLoop] at h
  | cons chunk rest ih =>
    intro serr i size staged size' header' staged' h
    simp only [streamLoop] at h
    split at h
    · exact absurd h (by simp)
    · split at h
      · exact absurd h (by simp)
      · rw [take12_append staged chunk] at h
        obtain ⟨h1, h2, h3, h4⟩ := ih serr (i + 1)
          (saturAdd64 size chunk.length) (staged ++ chunk)
          size' header' staged' h
        refine ⟨?_, h2, ?_, h4⟩
        · rw [h1, List.flatten_cons, List.append_assoc]
        · rw [h3]; rfl

theorem streamLoop_too_large (maxB : Nat) (wf : Option Nat) :
    ∀ (pre : List (List Nat)) (c : List Nat) (post : List (List Nat))
      (serr : Bool) (i size : Nat) (header staged : List Nat),
      size ≤ 2 ^ 64 - 1 →
      (∀ k, wf = some k → i + pre.length ≤ k) →
      pre.foldl (fun s c => saturAdd64 s c.length) size ≤ maxB →
      saturAdd64 (pre.foldl (fun s c => saturAdd64 s c.length) size) c.length
        > maxB →
      streamLoop maxB wf (pre ++ c :: post) serr i size header staged
        = .fail .FileTooLarge := by
  intro pre
  induction pre with
  | nil =>
    intro c post serr i size header staged _ _ _ hbig
    simp only [List.nil_append, streamLoop, List.foldl_nil] at hbig ⊢
    rw [if_pos hbig]
  | cons p pre' ih =>
    intro c post serr i size header staged hcap hwf hfold hbig
    simp only [List.cons_append, streamLoop]
    have hstep : saturAdd64 size p.length ≤ maxB := by
      have h1 : saturAdd64 size p.length ≤
          pre'.foldl (fun s c => saturAdd64 s c.length)
            (saturAdd64 size p.length) :=
        le_foldSat pre' _ (saturAdd64_le_cap size p.length)
      exact Nat.le_trans h1 hfold
    rw [if_neg (by omega)]
    have hwfi : ¬ wf = some i := by
      intro hk
      have := hwf i hk
      simp [List.length_cons] at this
    rw [if_neg hwfi]
    exact ih c post serr (i + 1) (saturAdd64 size p.length) _ _
      (saturAdd64_le_cap size p.length)
      (fun k hk => by have := hwf k hk; simp [List.length_cons] at this; omega)
      hfold hbig

theorem streamLoop_eval (maxB : Nat) :
    ∀ (chunks : List (List Nat)) (i size : Nat) (staged : List Nat),
      size ≤ 2 ^ 64 - 1 →
      chunks.foldl (fun s c => saturAdd64 s c.length) size ≤ maxB →
      streamLoop maxB none chunks false i size (staged.take 12) staged
        = .done (chunks.foldl (fun s c => saturAdd64 s c.length) size)
            ((staged ++ chunks.flatten).take 12) (staged ++ chunks.flatten) := by
  intro chunks
  induction chunks with
  | nil =>
    intro i size staged _ _
    simp [streamLoop]
  | cons c rest ih =>
    intro i size staged hcap hfold
    simp only [streamLoop]
    have hstep : saturAdd64 size c.length ≤ maxB := by
      have h1 : saturAdd64 size c.length ≤
          rest.foldl (fun s c => saturAdd64 s c.length)
            (saturAdd64 size c.length) :=
        le_foldSat rest _ (saturAdd64_le_cap size c.length)
      exact Nat.le_trans h1 hfold
    rw [if_neg (by omega)]
    simp only [reduceCtorEq, if_false, if_neg]
    rw [take12_append staged c]
    rw [ih (i + 1) (saturAdd64 size c.length) (staged ++ c)
      (saturAdd64_le_cap size c.length) hfold]
    rw [List.flatten_cons, List.append_assoc]
    simp [List.foldl_cons]

theorem processField_commit (env : UploadEnv) (f : MultipartField) (fs : Fs)
    (fn : String)
    (hname : f.name = some "file") (hfn : f.filename = some fn)
    (hext : has_webp_extension fn = true)
    (htmp : env.tmpDirOk = true) (hcr : env.createNewOk = true)
    (hwf : env.writeFailAt = none) (hserr : f.streamErr = false)
    (hsize : totalSat f.chunks ≤ env.maxUploadBytes)
    (hflush : env.flushOk = true)
    (hsig : has_webp_signature (f.chunks.flatten.take 12) = true)
    (hmk : env.mkdirFinalOk = true) (hex : env.existsErr = false) :
    processField env f fs =
      (let sha := env.sha256hex f.chunks.flatten
       let rel := relativePath env.year env.month sha
       let resp := mkResponse env rel sha (totalSat f.chunks)
       let fs1 : Fs := { fs with tmpExists := true }
       if (fs.files rel).isSome then (.ok resp, removeTmp env.removeOk fs1)
       else match env.rename with
         | .renamed =>
           (.ok resp,
             { (fs1.store rel f.chunks.flatten) with tmpExists := false })
         | .alreadyExists => (.ok resp, removeTmp env.removeOk fs1)
         | .otherErr => (.error .Internal, removeTmp env.removeOk fs1)) := by
  have hloop : streamLoop env.maxUploadBytes env.writeFailAt f.chunks
      f.streamErr 0 0 [] []
      = .done (totalSat f.chunks) (f.chunks.flatten.take 12)
          f.chunks.flatten := by
    rw [hwf, hserr]
    have := streamLoop_eval env.maxUploadBytes f.chunks 0 0 []
      (by omega) hsize
    simpa [totalSat] using this
  simp only [processField, hname, hfn, hext, htmp, hcr, hloop, hflush, hsig,
    hmk, hex]
  simp

theorem processField_ok_shape (env : UploadEnv) (f : MultipartField) (fs : Fs)
    (resp : UploadResponse) (fs' : Fs)
    (h : processField env f fs = (.ok resp, fs')) :
    resp.sha256 = env.sha256hex f.chunks.flatten ∧
    resp.path = relativePath env.year env.month resp.sha256 ∧
    resp.url = trimEndSlashes env.publicBaseUrl ++ resp.path ∧
    resp.size = totalSat f.chunks := by
  simp only [processField] at h
  split at h
  · exact absurd h (by simp)
  split at h
  · exact absurd h (by simp)
  split at h
  · exact absurd h (by simp)
  split at h
  · exact absurd h (by simp)
  split at h
  · exact absurd h (by simp)
  rename_i heq
  split at h
  · exact absurd h (by simp)
  rename_i size header staged hloop
  obtain ⟨hst, hhd, hsz, hse⟩ := streamLoop_done_inv env.maxUploadBytes
    env.writeFailAt f.chunks f.streamErr 0 0 [] size header staged hloop
  split at h
  · exact absurd h (by simp)
  split at h
  · exact absurd h (by simp)
  split at h
  · exact absurd h (by simp)
  split at h
  · exact absurd h (by simp)
  split at h
  · rw [Prod.mk.injEq] at h
    obtain ⟨h1, -⟩ := h
    injection h1 with h1
    subst h1
    subst hst
    simp [mkResponse, hsz, totalSat, List.nil_append]
  · split at h
    · rw [Prod.mk.injEq] at h
      obtain ⟨h1, -⟩ := h
      injection h1 with h1
      subst h1
      subst hst
      simp [mkResponse, hsz, totalSat, List.nil_append]
    · rw [Prod.mk.injEq] at h
      obtain ⟨h1, -⟩ := h
      injection h1 with h1
      subst h1
      subst hst
      simp [mkResponse, hsz, totalSat, List.nil_append]
    · exact absurd h (by simp)

theorem pruneQueue_eq_dropWhile (window now : Nat) :
    ∀ l : List Nat, pruneQueue window now l
      = l.dropWhile (fun t => decide (now - t > window)) := by
  intro l
  induction l with
  | nil => rfl
  | cons t rest ih =>
    by_cases hc : now - t > window
    · simp [pruneQueue, List.dropWhile_cons, hc, ih]
    · simp [pruneQueue, List.dropWhile_cons, hc]

theorem processField_badName (env : UploadEnv) (f : MultipartField) (fs : Fs)
    (h : ¬ f.name = some "file") :
    processField env f fs = (.error .BadRequest, fs) := by
  simp [processField, h]

theorem processField_noFilename (env : UploadEnv) (f : MultipartField)
    (fs : Fs) (h1 : f.name = some "file") (h2 : f.filename = none) :
    processField env f fs = (.error .BadRequest, fs) := by
  simp [processField, h1, h2]

theorem processField_badExt (env : UploadEnv) (f : MultipartField) (fs : Fs)
    (fn : String) (h1 : f.name = some "file") (h2 : f.filename = some fn)
    (h3 : has_webp_extension fn = false) :
    processField env f fs = (.error .UnsupportedMediaType, fs) := by
  simp [processField, h1, h2, h3]

theorem processField_noTmpDir (env : UploadEnv) (f : MultipartField)
    (fs : Fs) (fn : String) (h1 : f.name = some "file")
    (h2 : f.filename = some fn) (h3 : has_webp_extension fn = true)
    (h4 : env.tmpDirOk = false) :
    processField env f fs = (.error .Internal, fs) := by
  simp [processField, h1, h2, h3, h4]

theorem processField_noCreate (env : UploadEnv) (f : MultipartField)
    (fs : Fs) (fn : String) (h1 : f.name = some "file")
    (h2 : f.filename = some fn) (h3 : has_webp_extension fn = true)
    (h4 : env.tmpDirOk = true) (h5 : env.createNewOk = false) :
    processField env f fs = (.error .Internal, fs) := by
  simp [processField, h1, h2, h3, h4, h5]

theorem processField_loopFail (env : UploadEnv) (f : MultipartField)
    (fs : Fs) (fn : String) (e : AppError) (h1 : f.name = some "file")
    (h2 : f.filename = some fn) (h3 : has_webp_extension fn = true)
    (h4 : env.tmpDirOk = true) (h5 : env.createNewOk = true)
    (hl : streamLoop env.maxUploadBytes env.writeFailAt f.chunks f.streamErr
      0 0 [] [] = .fail e) :
    processField env f fs
      = (.error e, removeTmp env.removeOk { fs with tmpExists := true }) := by
  simp [processField, h1, h2, h3, h4, h5, hl]

theorem processField_noFlush (env : UploadEnv) (f : MultipartField)
    (fs : Fs) (fn : String) (size : Nat) (header staged : List Nat)
    (h1 : f.name = some "file") (h2 : f.filename = some fn)
    (h3 : has_webp_extension fn = true) (h4 : env.tmpDirOk = true)
    (h5 : env.createNewOk = true)
    (hl : streamLoop env.maxUploadBytes env.writeFailAt f.chunks f.streamErr
      0 0 [] [] = .done size header staged)
    (h6 : env.flushOk = false) :
    processField env f fs
      = (.error .Internal,
         removeTmp env.removeOk { fs with tmpExists := true }) := by
  simp [processField, h1, h2, h3, h4, h5, hl, h6]

theorem processField_badSig (env : UploadEnv) (f : MultipartField)
    (fs : Fs) (fn : String) (size : Nat) (header staged : List Nat)
    (h1 : f.name = some "file") (h2 : f.filename = some fn)
    (h3 : has_webp_extension fn = true) (h4 : env.tmpDirOk = true)
    (h5 : env.createNewOk = true)
    (hl : streamLoop env.maxUploadBytes env.writeFailAt f.chunks f.streamErr
      0 0 [] [] = .done size header staged)
    (h6 : env.flushOk = true) (h7 : has_webp_signature header = false) :
    processField env f fs
      = (.error .UnsupportedMediaType,
         removeTmp env.removeOk { fs with tmpExists := true }) := by
  simp [processField, h1, h2, h3, h4, h5, hl, h6, h7]

theorem processField_noMkdir (env : UploadEnv) (f : MultipartField)
    (fs : Fs) (fn : String) (size : Nat) (header staged : List Nat)
    (h1 : f.name = some "file") (h2 : f.filename = some fn)
    (h3 : has_webp_extension fn = true) (h4 : env.tmpDirOk = true)
    (h5 : env.createNewOk = true)
    (hl : streamLoop env.maxUploadBytes env.writeFailAt f.chunks f.streamErr
      0 0 [] [] = .done size header staged)
    (h6 : env.flushOk = true) (h7 : has_webp_signature header = true)
    (h8 : env.mkdirFinalOk = false) :
    processField env f fs
      = (.error .Internal,
         removeTmp env.removeOk { fs with tmpExists := true }) := by
  simp [processField, h1, h2, h3, h4, h5, hl, h6, h7, h8]

theorem processField_existsErr (env : UploadEnv) (f : MultipartField)
    (fs : Fs) (fn : String) (size : Nat) (header staged : List Nat)
    (h1 : f.name = some "file") (h2 : f.filename = some fn)
    (h3 : has_webp_extension fn = true) (h4 : env.tmpDirOk = true)
    (h5 : env.createNewOk = true)
    (hl : streamLoop env.maxUploadBytes env.writeFailAt f.chunks f.streamErr
      0 0 [] [] = .done size header staged)
    (h6 : env.flushOk = true) (h7 : has_webp_signature header = true)
    (h8 : env.mkdirFinalOk = true) (h9 : env.existsErr = true) :
    processField env f fs
      = (.error .Internal,
         removeTmp env.removeOk { fs with tmpExists := true }) := by
  simp [processField, h1, h2, h3, h4, h5, hl, h6, h7, h8, h9]

theorem processField_dedup (env : UploadEnv) (f : MultipartField)
    (fs : Fs) (fn : String) (size : Nat) (header staged b : List Nat)
    (h1 : f.name = some "file") (h2 : f.filename = some fn)
    (h3 : has_webp_extension fn = true) (h4 : env.tmpDirOk = true)
    (h5 : env.createNewOk = true)
    (hl : streamLoop env.maxUploadBytes env.writeFailAt f.chunks f.streamErr
      0 0 [] [] = .done size header staged)
    (h6 : env.flushOk = true) (h7 : has_webp_signature header = true)
    (h8 : env.mkdirFinalOk = true) (h9 : env.existsErr = false)
    (h10 : fs.files (relativePath env.year env.month (env.sha256hex staged))
      = some b) :
    processField env f fs
      = (.ok (mkResponse env
          (relativePath env.year env.month (env.sha256hex staged))
          (env.sha256hex staged) size),
         removeTmp env.removeOk { fs with tmpExists := true }) := by
  simp [processField, h1, h2, h3, h4, h5, hl, h6, h7, h8, h9, h10]

theorem processField_renamed (env : UploadEnv) (f : MultipartField)
    (fs : Fs) (fn : String) (size : Nat) (header staged : List Nat)
    (h1 : f.name = some "file") (h2 : f.filename = some fn)
    (h3 : has_webp_extension fn = true) (h4 : env.tmpDirOk = true)
    (h5 : env.createNewOk = true)
    (hl : streamLoop env.maxUploadBytes env.writeFailAt f.chunks f.streamErr
      0 0 [] [] = .done size header staged)
    (h6 : env.flushOk = true) (h7 : has_webp_signature header = true)
    (h8 : env.mkdirFinalOk = true) (h9 : env.existsErr = false)
    (h10 : fs.files (relativePath env.year env.month (env.sha256hex staged))
      = none)
    (h11 : env.rename = .renamed) :
    processField env f fs
      = (.ok (mkResponse env
          (relativePath env.year env.month (env.sha256hex staged))
          (env.sha256hex staged) size),
         { ({ fs with tmpExists := true }.store
             (relativePath env.year env.month (env.sha256hex staged))
             staged) with tmpExists := false }) := by
  simp [processField, h1, h2, h3, h4, h5, hl, h6, h7, h8, h9, h10, h11]

theorem processField_already (env : UploadEnv) (f : MultipartField)
    (fs : Fs) (fn : String) (size : Nat) (header staged : List Nat)
    (h1 : f.name = some "file") (h2 : f.filename = some fn)
    (h3 : has_webp_extension fn = true) (h4 : env.tmpDirOk = true)
    (h5 : env.createNewOk = true)
    (hl : streamLoop env.maxUploadBytes env.writeFailAt f.chunks f.streamErr
      0 0 [] [] = .done size header staged)
    (h6 : env.flushOk = true) (h7 : has_webp_signature header = true)
    (h8 : env.mkdirFinalOk = true) (h9 : env.existsErr = false)
    (h10 : fs.files (relativePath env.year env.month (env.sha256hex staged))
      = none)
    (h11 : env.rename = .alreadyExists) :
    processField env f fs
      = (.ok (mkResponse env
          (relativePath env.year env.month (env.sha256hex staged))
          (env.sha256hex staged) size),
         removeTmp env.removeOk { fs with tmpExists := true }) := by
  simp [processField, h1, h2, h3, h4, h5, hl, h6, h7, h8, h9, h10, h11]

theorem processField_renameErr (env : UploadEnv) (f : MultipartField)
    (fs : Fs) (fn : String) (size : Nat) (header staged : List Nat)
    (h1 : f.name = some "file") (h2 : f.filename = some fn)
    (h3 : has_webp_extension fn = true) (h4 : env.tmpDirOk = true)
    (h5 : env.createNewOk = true)
    (hl : streamLoop env.maxUploadBytes env.writeFailAt f.chunks f.streamErr
      0 0 [] [] = .done size header staged)
    (h6 : env.flushOk = true) (h7 : has_webp_signature header = true)
    (h8 : env.mkdirFinalOk = true) (h9 : env.existsErr = false)
    (h10 : fs.files (relativePath env.year env.month (env.sha256hex staged))
      = none)
    (h11 : env.rename = .otherErr) :
    processField env f fs
      = (.error .Internal,
         removeTmp env.removeOk { fs with tmpExists := true }) := by
  simp [processField, h1, h2, h3, h4, h5, hl, h6, h7, h8, h9, h10, h11]

/-! ## Claims -/

/-- C10: the handler's loop body returns on every path, so the response is
decided entirely by the first multipart part; any parts after it are never
examined and cannot change the response or the filesystem effect. -/
theorem upload_first_field_decides (env : UploadEnv) (f : MultipartField)
    (rest : List MultipartField) (fs : Fs) :
    uploadHandler env (f :: rest) fs = uploadHandler env [f] fs := rfl

/-- C7: a rate check first prunes the key's queue of timestamps older than
the window (a dropWhile from the front), persists the pruned queue, rejects
without recording when the remaining count is at or above the limit, records
the current timestamp and admits otherwise, and never touches any other
key's queue. -/
theorem rate_check_spec (window : Nat) (st : RLState) (key : String)
    (maxRequests now : Nat) :
    pruneQueue window now (st key)
      = (st key).dropWhile (fun t => decide (now - t > window)) ∧
    ((SimpleRateLimiter.check window st key maxRequests now).1 = false ↔
      (pruneQueue window now (st key)).length ≥ maxRequests) ∧
    (SimpleRateLimiter.check window st key maxRequests now).2 key
      = (if (pruneQueue window now (st key)).length ≥ maxRequests
         then pruneQueue window now (st key)
         else pruneQueue window now (st key) ++ [now]) ∧
    (∀ k', k' ≠ key →
      (SimpleRateLimiter.check window st key maxRequests now).2 k' = st k') := by
  refine ⟨pruneQueue_eq_dropWhile window now (st key), ?_, ?_, ?_⟩
  · simp only [SimpleRateLimiter.check]
    split
    · rename_i hge
      simp [hge]
    · rename_i hlt
      simp [hlt]
  · simp only [SimpleRateLimiter.check]
    split
    · rename_i hge
      simp [RLState.set, hge]
    · rename_i hlt
      simp [RLState.set, hlt]
  · intro k' hk
    simp only [SimpleRateLimiter.check]
    split
    · simp [RLState.set, hk]
    · simp [RLState.set, hk]

/-- C7 witness: the theorem at a concrete state, with the distinct-key
hypothesis discharged at key "b" against checked key "a". -/
theorem rate_check_spec_witness :
    ("b" ≠ "a") ∧
    (SimpleRateLimiter.check 60 (fun _ => ([] : List Nat)) "a" 1 5).2 "b"
      = [] :=
  ⟨by decide,
    (rate_check_spec 60 (fun _ => ([] : List Nat)) "a" 1 5).2.2.2 "b"
      (by decide)⟩

/-- C8: the rate gate first checks the source-address key against the global
limit — a failure there is TooManyRequests; if the request carries an
identity without a rate-limit override only that address gate applies; with
an override an additional, layered check is made on the identity-fingerprint
key with the override limit, whose failure is also TooManyRequests; every
rejection the middleware emits is TooManyRequests. -/
theorem rate_middleware_spec (window globalLimit : Nat) (st : RLState)
    (ip : String) (auth : Option AuthorizedToken) (now : Nat) :
    ((SimpleRateLimiter.check window st ("ip:" ++ ip) globalLimit now).1
        = false →
      rate_limit_middleware window globalLimit st ip auth now
        = (.error .TooManyRequests,
           (SimpleRateLimiter.check window st ("ip:" ++ ip) globalLimit
             now).2)) ∧
    ((SimpleRateLimiter.check window st ("ip:" ++ ip) globalLimit now).1
        = true →
      (∀ a, auth = some a → a.rateLimitPerMinute = none) →
      rate_limit_middleware window globalLimit st ip auth now
        = (.ok (),
           (SimpleRateLimiter.check window st ("ip:" ++ ip) globalLimit
             now).2)) ∧
    (∀ a lim, auth = some a → a.rateLimitPerMinute = some lim →
      (SimpleRateLimiter.check window st ("ip:" ++ ip) globalLimit now).1
        = true →
      rate_limit_middleware window globalLimit st ip auth now
        = ((if (SimpleRateLimiter.check window
                (SimpleRateLimiter.check window st ("ip:" ++ ip) globalLimit
                  now).2
                ("token:" ++ a.tokenId) lim now).1
            then .ok () else .error .TooManyRequests),
           (SimpleRateLimiter.check window
             (SimpleRateLimiter.check window st ("ip:" ++ ip) globalLimit
               now).2
             ("token:" ++ a.tokenId) lim now).2)) ∧
    (∀ e st', rate_limit_middleware window globalLimit st ip auth now
        = (.error e, st') → e = .TooManyRequests) := by
  refine ⟨?_, ?_, ?_, ?_⟩
  · intro h1
    simp [rate_limit_middleware, h1]
  · intro h1 hnone
    cases auth with
    | none => simp [rate_limit_middleware, h1]
    | some a =>
      have := hnone a rfl
      simp [rate_limit_middleware, h1, this]
  · intro a lim ha hlim h1
    subst ha
    simp only [rate_limit_middleware, h1]
    simp [hlim]
    split <;> simp
  · intro e st' h
    simp only [rate_limit_middleware] at h
    split at h
    · rw [Prod.mk.injEq] at h
      obtain ⟨h1, -⟩ := h
      injection h1 with h1
      exact h1.symm
    · split at h
      · split at h
        · split at h
          · exact absurd h (by simp)
          · rw [Prod.mk.injEq] at h
            obtain ⟨h1, -⟩ := h
            injection h1 with h1
            exact h1.symm
        · exact absurd h (by simp)
      · exact absurd h (by simp)

/-- C8 witness: the theorem at a concrete empty limiter state with a global
limit of 0, forcing the address gate to reject with TooManyRequests. -/
theorem rate_middleware_spec_witness :
    (SimpleRateLimiter.check 60 (fun _ => ([] : List Nat)) ("ip:" ++ "a") 0
       5).1 = false ∧
    rate_limit_middleware 60 0 (fun _ => ([] : List Nat)) "a" none 5
      = (.error .TooManyRequests,
         (SimpleRateLimiter.check 60 (fun _ => ([] : List Nat)) ("ip:" ++ "a")
           0 5).2) :=
  ⟨by decide,
    (rate_middleware_spec 60 0 (fun _ => ([] : List Nat)) "a" none 5).1
      (by decide)⟩

/-- C6: a request with no extractable credential, an empty credential value
in either header (treated as absent), an unknown credential, or an expired
credential is rejected with the one same Unauthorized outcome; extraction
prefers a non-empty x-upload-token value and falls back to the bearer-scheme
Authorization header only when the custom header yields no non-empty
value. -/
theorem auth_unauthorized_spec (store : TokenStore) (now : Nat)
    (h : Headers) :
    (extract_token h = none →
      auth_middleware store now h = .rejected .Unauthorized) ∧
    (h.xUploadToken = some "" →
      extract_token h
        = extract_token ⟨none, h.authorization⟩) ∧
    (h.xUploadToken = none → h.authorization = some "" →
      extract_token h = none) ∧
    (h.xUploadToken = none → h.authorization = some "Bearer " →
      extract_token h = none) ∧
    (∀ raw, extract_token h = some raw → store.lookup raw = none →
      auth_middleware store now h = .rejected .Unauthorized) ∧
    (∀ raw p exp, extract_token h = some raw → store.lookup raw = some p →
      p.expiresAt = some exp → now > exp →
      auth_middleware store now h = .rejected .Unauthorized) ∧
    (∀ v, h.xUploadToken = some v → v ≠ "" → extract_token h = some v) := by
  refine ⟨?_, ?_, ?_, ?_, ?_, ?_, ?_⟩
  · intro he
    simp [auth_middleware, he]
  · intro hx
    simp [extract_token, hx, Option.filter]
  · intro hx ha
    simp [extract_token, hx, ha, Option.filter]
  · intro hx ha
    simp [extract_token, hx, ha, stripBearer, Option.filter]
  · intro raw he hl
    simp [auth_middleware, he, TokenStore.authorize, hl]
  · intro raw p exp he hl hexp hnow
    simp [auth_middleware, he, TokenStore.authorize, hl, hexp, hnow]
  · intro v hx hv
    simp [extract_token, hx, hv, Option.filter]

/-- C6 witness: the theorem at the demo store: the expired record "old"
(expired at 100, now 200) presented through the custom header is rejected
Unauthorized. -/
theorem auth_unauthorized_spec_witness :
    extract_token ⟨some "old", none⟩ = some "old" ∧
    demoStore.lookup "old"
      = some { name := "ex", tokenId := "fp-old"
               expiresAt := some 100, rateLimitPerMinute := none } ∧
    auth_middleware demoStore 200 ⟨some "old", none⟩
      = .rejected .Unauthorized :=
  ⟨by decide, by decide,
    (auth_unauthorized_spec demoStore 200 ⟨some "old", none⟩).2.2.2.2.2.1
      "old"
      { name := "ex", tokenId := "fp-old"
        expiresAt := some 100, rateLimitPerMinute := none }
      100 (by decide) (by decide) (by decide) (by decide)⟩

/-- C5 counterexample: a part named "file" with no declared filename is
rejected BadRequest, not UnsupportedMediaType as the claim states. -/
theorem missing_filename_counterexample :
    (uploadHandler happyEnv
      [{ name := some "file", filename := none
         chunks := [fixtureBytes], streamErr := false }] emptyFs).1
      = .error .BadRequest ∧
    AppError.BadRequest ≠ AppError.UnsupportedMediaType := by
  exact ⟨by decide, by decide⟩

/-- C5 (amended): a part named "file" with no declared filename is rejected
BadRequest; a declared filename whose extension does not case-insensitively
equal "webp" — including a filename with no extension — is rejected
UnsupportedMediaType; in both cases the rejection happens before any bytes
are read or written: the filesystem, including the temp area, is returned
untouched. -/
theorem extension_gate_spec (env : UploadEnv) (f : MultipartField) (fs : Fs)
    (rest : List MultipartField) :
    (f.name = some "file" → f.filename = none →
      uploadHandler env (f :: rest) fs = (.error .BadRequest, fs)) ∧
    (∀ fn, f.name = some "file" → f.filename = some fn →
      has_webp_extension fn = false →
      uploadHandler env (f :: rest) fs
        = (.error .UnsupportedMediaType, fs)) ∧
    (∀ fn, rustExtension fn = none → has_webp_extension fn = false) := by
  refine ⟨?_, ?_, ?_⟩
  · intro hn hf
    simp [uploadHandler, processField, hn, hf]
  · intro fn hn hf hext
    simp [uploadHandler, processField, hn, hf, hext]
  · intro fn hnone
    simp [has_webp_extension, hnone]

/-- C5 witness: the theorem at concrete parts: a missing filename gives
BadRequest with the filesystem untouched, and filename "fake.png" (whose
extension is not webp) gives UnsupportedMediaType with the filesystem
untouched. -/
theorem extension_gate_spec_witness :
    uploadHandler happyEnv
      [{ name := some "file", filename := none
         chunks := [fixtureBytes], streamErr := false }] emptyFs
      = (.error .BadRequest, emptyFs) ∧
    uploadHandler happyEnv
      [{ name := some "file", filename := some "fake.png"
         chunks := [fixtureBytes], streamErr := false }] emptyFs
      = (.error .UnsupportedMediaType, emptyFs) :=
  ⟨(extension_gate_spec happyEnv
      { name := some "file", filename := none
        chunks := [fixtureBytes], streamErr := false } emptyFs []).1
      rfl rfl,
   (extension_gate_spec happyEnv
      { name := some "file", filename := some "fake.png"
        chunks := [fixtureBytes], streamErr := false } emptyFs []).2.1
      "fake.png" rfl rfl (by decide)⟩

theorem removeTmp_files (b : Bool) (fs : Fs) :
    (removeTmp b fs).files = fs.files := by
  cases b <;> simp [removeTmp]

theorem removeTmp_true_tmp (fs : Fs) :
    (removeTmp true fs).tmpExists = false := by
  simp [removeTmp]

theorem renameCases (r : RenameOutcome) :
    r = .renamed ∨ r = .alreadyExists ∨ r = .otherErr := by
  cases r <;> simp

theorem boolFalseOrTrue (b : Bool) : b = false ∨ b = true := by
  cases b <;> simp

/-- C4: the signature check over the staged body's captured header passes
exactly when at least 12 body bytes were received, bytes 0..4 are "RIFF" and
bytes 8..12 are "WEBP"; fewer than 12 bytes always fail it; and when the
full body staged cleanly but its signature does not match, the handler
answers UnsupportedMediaType, stores no final file, and the staged temp file
is discarded. -/
theorem signature_gate_spec (env : UploadEnv) (f : MultipartField) (fs : Fs)
    (fn : String) (rest : List MultipartField) :
    (∀ B : List Nat, has_webp_signature (B.take 12)
      = (decide (B.length ≥ 12) && decide (B.take 4 = riffTag)
          && decide ((B.drop 8).take 4 = webpTag))) ∧
    (∀ B : List Nat, B.length < 12 →
      has_webp_signature (B.take 12) = false) ∧
    (f.name = some "file" → f.filename = some fn →
      has_webp_extension fn = true →
      env.tmpDirOk = true → env.createNewOk = true →
      env.writeFailAt = none → f.streamErr = false →
      totalSat f.chunks ≤ env.maxUploadBytes → env.flushOk = true →
      has_webp_signature (f.chunks.flatten.take 12) = false →
      (uploadHandler env (f :: rest) fs).1 = .error .UnsupportedMediaType ∧
      (∀ p, ((uploadHandler env (f :: rest) fs).2).files p = fs.files p) ∧
      (env.removeOk = true →
        ((uploadHandler env (f :: rest) fs).2).tmpExists = false)) := by
  have hsig12 : ∀ B : List Nat, has_webp_signature (B.take 12)
      = (decide (B.length ≥ 12) && decide (B.take 4 = riffTag)
          && decide ((B.drop 8).take 4 = webpTag)) := by
    intro B
    have h1 : decide ((B.take 12).length ≥ 12) = decide (B.length ≥ 12) := by
      rw [decide_eq_decide, List.length_take]
      omega
    have h2 : (B.take 12).take 4 = B.take 4 := by
      rw [List.take_take]
      norm_num
    have h3 : ((B.take 12).drop 8).take 4 = (B.drop 8).take 4 := by
      rw [List.drop_take, List.take_take]
      norm_num
    simp only [has_webp_signature, h1, h2, h3]
  refine ⟨hsig12, ?_, ?_⟩
  · intro B hB
    rw [hsig12 B]
    simp
    omega
  · intro hname hfn hext htmp hcr hwf hserr hsize hflush hbad
    have hloop : streamLoop env.maxUploadBytes env.writeFailAt f.chunks
        f.streamErr 0 0 [] []
        = .done (totalSat f.chunks) (f.chunks.flatten.take 12)
            f.chunks.flatten := by
      rw [hwf, hserr]
      have := streamLoop_eval env.maxUploadBytes f.chunks 0 0 []
        (by omega) hsize
      simpa [totalSat] using this
    have heval : uploadHandler env (f :: rest) fs
        = (.error .UnsupportedMediaType,
           removeTmp env.removeOk { fs with tmpExists := true }) := by
      simp [uploadHandler, processField, hname, hfn, hext, htmp, hcr, hloop,
        hflush, hbad]
    rw [heval]
    refine ⟨rfl, ?_, ?_⟩
    · intro p
      rw [removeTmp_files]
    · intro hrm
      rw [hrm, removeTmp_true_tmp]

/-- C4 witness: a "hello" payload declared as fake.webp passes the extension
gate but fails the signature check: UnsupportedMediaType, no stored object,
temp file removed. -/
theorem signature_gate_spec_witness :
    (uploadHandler happyEnv
      [{ name := some "file", filename := some "fake.webp"
         chunks := [[104, 101, 108, 108, 111]], streamErr := false }]
      emptyFs).1 = .error .UnsupportedMediaType ∧
    ((uploadHandler happyEnv
      [{ name := some "file", filename := some "fake.webp"
         chunks := [[104, 101, 108, 108, 111]], streamErr := false }]
      emptyFs).2).files "/2025/10/abcd.webp" = none ∧
    ((uploadHandler happyEnv
      [{ name := some "file", filename := some "fake.webp"
         chunks := [[104, 101, 108, 108, 111]], streamErr := false }]
      emptyFs).2).tmpExists = false := by
  have h := (signature_gate_spec happyEnv
    { name := some "file", filename := some "fake.webp"
      chunks := [[104, 101, 108, 108, 111]], streamErr := false }
    emptyFs "fake.webp" []).2.2
    rfl rfl (by decide) rfl rfl rfl rfl (by decide) rfl (by decide)
  exact ⟨h.1, h.2.1 "/2025/10/abcd.webp", h.2.2 rfl⟩

/-- C3: when the running total first exceeds the cap at some chunk, the
handler fails FileTooLarge at that chunk: the chunks after it and the way
the stream would have ended are never consumed and cannot change the
outcome, the outcome is the same even if writing that very chunk would have
failed (the size check runs before the write), no final file is stored, and
the temp file is discarded. -/
theorem too_large_spec (env : UploadEnv) (f : MultipartField) (fs : Fs)
    (fn : String) (pre : List (List Nat)) (c : List Nat)
    (post : List (List Nat)) (rest : List MultipartField) :
    f.name = some "file" → f.filename = some fn →
    has_webp_extension fn = true →
    env.tmpDirOk = true → env.createNewOk = true →
    (env.writeFailAt = none ∨ env.writeFailAt = some pre.length) →
    f.chunks = pre ++ c :: post →
    totalSat pre ≤ env.maxUploadBytes →
    saturAdd64 (totalSat pre) c.length > env.maxUploadBytes →
    (uploadHandler env (f :: rest) fs).1 = .error .FileTooLarge ∧
    (∀ post' serr',
      (uploadHandler env
        ({ f with chunks := pre ++ c :: post', streamErr := serr' } :: rest)
        fs).1 = .error .FileTooLarge) ∧
    (∀ p, ((uploadHandler env (f :: rest) fs).2).files p = fs.files p) ∧
    (env.removeOk = true →
      ((uploadHandler env (f :: rest) fs).2).tmpExists = false) := by
  intro hname hfn hext htmp hcr hwf hchunks hpre hbig
  have hwfcond : ∀ k, env.writeFailAt = some k → 0 + pre.length ≤ k := by
    intro k hk
    rcases hwf with hw | hw
    · rw [hw] at hk; exact absurd hk (by simp)
    · rw [hw] at hk
      injection hk with hk
      omega
  have hloop : ∀ (post₂ : List (List Nat)) (serr₂ : Bool),
      streamLoop env.maxUploadBytes env.writeFailAt (pre ++ c :: post₂)
        serr₂ 0 0 [] [] = .fail .FileTooLarge := by
    intro post₂ serr₂
    exact streamLoop_too_large env.maxUploadBytes env.writeFailAt pre c
      post₂ serr₂ 0 0 [] [] (by omega) hwfcond hpre hbig
  refine ⟨?_, ?_, ?_, ?_⟩
  · simp only [uploadHandler, processField, hname, hfn, hext, htmp, hcr,
      hchunks, hloop]
    simp
  · intro post' serr'
    simp only [uploadHandler, processField, hname, hfn, hext, htmp, hcr,
      hloop]
    simp
  · intro p
    simp only [uploadHandler, processField, hname, hfn, hext, htmp, hcr,
      hchunks, hloop]
    simp [removeTmp_files]
  · intro hrm
    simp only [uploadHandler, processField, hname, hfn, hext, htmp, hcr,
      hchunks, hloop]
    rw [hrm]
    simp [removeTmp_true_tmp]

/-- C3 witness: a 16-byte single-chunk upload against a 10-byte cap fails
FileTooLarge with nothing stored and the temp file removed, regardless of
what would have followed the oversized chunk. -/
theorem too_large_spec_witness :
    (uploadHandler { happyEnv with maxUploadBytes := 10 } [okField]
      emptyFs).1 = .error .FileTooLarge ∧
    (uploadHandler { happyEnv with maxUploadBytes := 10 }
      [{ okField with chunks := [fixtureBytes, [1, 2, 3]], streamErr := true }]
      emptyFs).1 = .error .FileTooLarge ∧
    ((uploadHandler { happyEnv with maxUploadBytes := 10 } [okField]
      emptyFs).2).files "/2025/10/abcd.webp" = none ∧
    ((uploadHandler { happyEnv with maxUploadBytes := 10 } [okField]
      emptyFs).2).tmpExists = false := by
  have h := too_large_spec { happyEnv with maxUploadBytes := 10 } okField
    emptyFs "ok.webp" [] fixtureBytes [] []
    rfl rfl (by decide) rfl rfl (Or.inl rfl) rfl (by decide) (by decide)
  exact ⟨h.1, h.2.1 [[1, 2, 3]] true, h.2.2.1 "/2025/10/abcd.webp",
    h.2.2.2 rfl⟩

/-- C2 counterexample: with public base URL "https://h/" (trailing slash)
the committed upload's url is not publicBaseUrl ++ path — the handler trims
the trailing slash before concatenating, so the claim's url equation fails
for such configurations. -/
theorem url_concat_counterexample :
    (uploadHandler { happyEnv with publicBaseUrl := "https://h/" } [okField]
      emptyFs).1
      = .ok { url := "https://h/2025/10/abcd.webp"
              path := "/2025/10/abcd.webp", sha256 := "abcd", size := 16 } ∧
    ¬ ("https://h/2025/10/abcd.webp"
        = ({ happyEnv with publicBaseUrl := "https://h/" }
            : UploadEnv).publicBaseUrl ++ "/2025/10/abcd.webp") :=
  ⟨by decide, by decide⟩

/-- C2 (amended): every committed upload reports sha256 equal to the digest
of the full uploaded byte stream, path "/" + year4 + "/" + month2 + "/" +
sha256 + ".webp" from the UTC calendar date read at commit time, size equal
to the accumulated stream size, and url equal to the public base URL with
its trailing slashes trimmed, concatenated with the path; two committed
uploads with the same digest and the same date report the same path. -/
theorem commit_path_spec (env : UploadEnv) (f : MultipartField)
    (rest : List MultipartField) (fs fs' : Fs) (resp : UploadResponse) :
    uploadHandler env (f :: rest) fs = (.ok resp, fs') →
    (resp.sha256 = env.sha256hex f.chunks.flatten ∧
     resp.path = "/" ++ pad0 4 env.year ++ "/" ++ pad0 2 env.month ++ "/"
        ++ resp.sha256 ++ ".webp" ∧
     resp.url = trimEndSlashes env.publicBaseUrl ++ resp.path ∧
     resp.size = totalSat f.chunks) ∧
    (∀ (env₂ : UploadEnv) (g : MultipartField) (rg : List MultipartField)
      (g₁ g₂ : Fs) (resp₂ : UploadResponse),
      uploadHandler env₂ (g :: rg) g₁ = (.ok resp₂, g₂) →
      env₂.year = env.year → env₂.month = env.month →
      resp₂.sha256 = resp.sha256 → resp₂.path = resp.path) := by
  intro h
  have hshape := processField_ok_shape env f fs resp fs' h
  obtain ⟨hsha, hpath, hurl, hsize⟩ := hshape
  constructor
  · refine ⟨hsha, ?_, hurl, hsize⟩
    rw [hpath]
    rfl
  · intro env₂ g rg g₁ g₂ resp₂ h₂ hy hm hs
    have hshape₂ := processField_ok_shape env₂ g g₁ resp₂ g₂ h₂
    obtain ⟨-, hpath₂, -, -⟩ := hshape₂
    rw [hpath₂, hpath, hy, hm, hs]

/-- C2 witness: the theorem at the concrete fault-free upload of the fixture
bytes: the reported fields have the derived shapes. -/
theorem commit_path_spec_witness :
    ("abcd" : String) = happyEnv.sha256hex okField.chunks.flatten ∧
    "/2025/10/abcd.webp" = "/" ++ pad0 4 happyEnv.year ++ "/"
      ++ pad0 2 happyEnv.month ++ "/" ++ "abcd" ++ ".webp" ∧
    "https://img.example.com/images/2025/10/abcd.webp"
      = trimEndSlashes happyEnv.publicBaseUrl ++ "/2025/10/abcd.webp" ∧
    (16 : Nat) = totalSat okField.chunks :=
  (commit_path_spec happyEnv okField [] emptyFs
    { files := fun q => if q = "/2025/10/abcd.webp" then some fixtureBytes
        else none
      tmpExists := false }
    { url := "https://img.example.com/images/2025/10/abcd.webp"
      path := "/2025/10/abcd.webp", sha256 := "abcd", size := 16 }
    (by rfl)).1

/-- C9: a request that started with no staging temp file and ends in an
error leaves no temp file behind whenever the best-effort removal succeeds —
every abort path after temp creation invokes the removal — and the
user-visible outcome never depends on whether that removal succeeds: the
response with removal succeeding equals the response with removal
failing. -/
theorem abort_cleanup_spec (env : UploadEnv) (fields : List MultipartField)
    (fs : Fs) :
    fs.tmpExists = false →
    ((∀ e fs', uploadHandler env fields fs = (.error e, fs') →
       env.removeOk = true → fs'.tmpExists = false) ∧
     (uploadHandler { env with removeOk := true } fields fs).1
       = (uploadHandler { env with removeOk := false } fields fs).1) := by
  intro hfs
  constructor
  · intro e fs' h hrm
    cases fields with
    | nil =>
      simp only [uploadHandler] at h
      rw [Prod.mk.injEq] at h
      obtain ⟨-, rfl⟩ := h
      exact hfs
    | cons f rest =>
      simp only [uploadHandler, processField] at h
      split at h
      · rw [Prod.mk.injEq] at h; obtain ⟨-, rfl⟩ := h; exact hfs
      split at h
      · rw [Prod.mk.injEq] at h; obtain ⟨-, rfl⟩ := h; exact hfs
      split at h
      · rw [Prod.mk.injEq] at h; obtain ⟨-, rfl⟩ := h; exact hfs
      split at h
      · rw [Prod.mk.injEq] at h; obtain ⟨-, rfl⟩ := h; exact hfs
      split at h
      · rw [Prod.mk.injEq] at h; obtain ⟨-, rfl⟩ := h; exact hfs
      split at h
      · rw [Prod.mk.injEq] at h; obtain ⟨-, rfl⟩ := h
        rw [hrm, removeTmp_true_tmp]
      split at h
      · rw [Prod.mk.injEq] at h; obtain ⟨-, rfl⟩ := h
        rw [hrm, removeTmp_true_tmp]
      split at h
      · rw [Prod.mk.injEq] at h; obtain ⟨-, rfl⟩ := h
        rw [hrm, removeTmp_true_tmp]
      split at h
      · rw [Prod.mk.injEq] at h; obtain ⟨-, rfl⟩ := h
        rw [hrm, removeTmp_true_tmp]
      split at h
      · rw [Prod.mk.injEq] at h; obtain ⟨-, rfl⟩ := h
        rw [hrm, removeTmp_true_tmp]
      split at h
      · exact absurd h (by simp)
      · split at h
        · exact absurd h (by simp)
        · exact absurd h (by simp)
        · rw [Prod.mk.injEq] at h; obtain ⟨-, rfl⟩ := h
          rw [hrm, removeTmp_true_tmp]
  · cases fields with
    | nil => rfl
    | cons f rest =>
      show (processField { env with removeOk := true } f fs).1
          = (processField { env with removeOk := false } f fs).1
      by_cases h1 : f.name = some "file"
      · rcases h2 : f.filename with _ | fn
        · rw [processField_noFilename { env with removeOk := true } f fs h1
              h2,
            processField_noFilename { env with removeOk := false } f fs h1
              h2]
        · rcases boolFalseOrTrue (has_webp_extension fn)
            with h3 | h3
          · rw [processField_badExt { env with removeOk := true } f fs fn h1
                h2 h3,
              processField_badExt { env with removeOk := false } f fs fn h1
                h2 h3]
          · rcases boolFalseOrTrue env.tmpDirOk with h4 | h4
            · rw [processField_noTmpDir { env with removeOk := true } f fs
                  fn h1 h2 h3 h4,
                processField_noTmpDir { env with removeOk := false } f fs
                  fn h1 h2 h3 h4]
            · rcases boolFalseOrTrue env.createNewOk with h5 | h5
              · rw [processField_noCreate { env with removeOk := true } f
                    fs fn h1 h2 h3 h4 h5,
                  processField_noCreate { env with removeOk := false } f
                    fs fn h1 h2 h3 h4 h5]
              · rcases hl : streamLoop env.maxUploadBytes env.writeFailAt
                    f.chunks f.streamErr 0 0 [] []
                  with e | ⟨size, header, staged⟩
                · rw [processField_loopFail { env with removeOk := true } f
                      fs fn e h1 h2 h3 h4 h5 hl,
                    processField_loopFail { env with removeOk := false } f
                      fs fn e h1 h2 h3 h4 h5 hl]
                · rcases boolFalseOrTrue env.flushOk with h6 | h6
                  · rw [processField_noFlush { env with removeOk := true }
                        f fs fn size header staged h1 h2 h3 h4 h5 hl h6,
                      processField_noFlush { env with removeOk := false }
                        f fs fn size header staged h1 h2 h3 h4 h5 hl h6]
                  · rcases boolFalseOrTrue
                        (has_webp_signature header) with h7 | h7
                    · rw [processField_badSig
                          { env with removeOk := true } f fs fn size header
                          staged h1 h2 h3 h4 h5 hl h6 h7,
                        processField_badSig
                          { env with removeOk := false } f fs fn size
                          header staged h1 h2 h3 h4 h5 hl h6 h7]
                    · rcases boolFalseOrTrue env.mkdirFinalOk
                        with h8 | h8
                      · rw [processField_noMkdir
                            { env with removeOk := true } f fs fn size
                            header staged h1 h2 h3 h4 h5 hl h6 h7 h8,
                          processField_noMkdir
                            { env with removeOk := false } f fs fn size
                            header staged h1 h2 h3 h4 h5 hl h6 h7 h8]
                      · rcases boolFalseOrTrue env.existsErr
                          with h9 | h9
                        swap
                        · rw [processField_existsErr
                              { env with removeOk := true } f fs fn size
                              header staged h1 h2 h3 h4 h5 hl h6 h7 h8 h9,
                            processField_existsErr
                              { env with removeOk := false } f fs fn size
                              header staged h1 h2 h3 h4 h5 hl h6 h7 h8 h9]
                        · rcases h10 : fs.files (relativePath env.year
                              env.month (env.sha256hex staged)) with _ | b
                          · rcases renameCases env.rename
                              with h11 | h11 | h11
                            · rw [processField_renamed
                                  { env with removeOk := true } f fs fn
                                  size header staged h1 h2 h3 h4 h5 hl h6
                                  h7 h8 h9 h10 h11,
                                processField_renamed
                                  { env with removeOk := false } f fs fn
                                  size header staged h1 h2 h3 h4 h5 hl h6
                                  h7 h8 h9 h10 h11]
                              rfl
                            · rw [processField_already
                                  { env with removeOk := true } f fs fn
                                  size header staged h1 h2 h3 h4 h5 hl h6
                                  h7 h8 h9 h10 h11,
                                processField_already
                                  { env with removeOk := false } f fs fn
                                  size header staged h1 h2 h3 h4 h5 hl h6
                                  h7 h8 h9 h10 h11]
                              rfl
                            · rw [processField_renameErr
                                  { env with removeOk := true } f fs fn
                                  size header staged h1 h2 h3 h4 h5 hl h6
                                  h7 h8 h9 h10 h11,
                                processField_renameErr
                                  { env with removeOk := false } f fs fn
                                  size header staged h1 h2 h3 h4 h5 hl h6
                                  h7 h8 h9 h10 h11]
                          · rw [processField_dedup
                                { env with removeOk := true } f fs fn size
                                header staged b h1 h2 h3 h4 h5 hl h6 h7 h8
                                h9 h10,
                              processField_dedup
                                { env with removeOk := false } f fs fn size
                                header staged b h1 h2 h3 h4 h5 hl h6 h7 h8
                                h9 h10]
                            rfl
      · rw [processField_badName { env with removeOk := true } f fs h1,
          processField_badName { env with removeOk := false } f fs h1]

/-- C9 witness: the theorem at a concrete aborted upload (signature
mismatch): the temp file is gone afterwards, and the response is unchanged
whether or not the removal succeeds. -/
theorem abort_cleanup_spec_witness :
    ((uploadHandler happyEnv
      [{ name := some "file", filename := some "x.webp"
         chunks := [[1, 2, 3]], streamErr := false }] emptyFs).2).tmpExists
      = false ∧
    (uploadHandler { happyEnv with removeOk := true }
      [{ name := some "file", filename := some "x.webp"
         chunks := [[1, 2, 3]], streamErr := false }] emptyFs).1
      = (uploadHandler { happyEnv with removeOk := false }
      [{ name := some "file", filename := some "x.webp"
         chunks := [[1, 2, 3]], streamErr := false }] emptyFs).1 :=
  ⟨(abort_cleanup_spec happyEnv
      [{ name := some "file", filename := some "x.webp"
         chunks := [[1, 2, 3]], streamErr := false }] emptyFs rfl).1
      .UnsupportedMediaType _ (by rfl) rfl,
   (abort_cleanup_spec happyEnv
      [{ name := some "file", filename := some "x.webp"
         chunks := [[1, 2, 3]], streamErr := false }] emptyFs rfl).2⟩

/-- C1: content-addressed commits are idempotent.  Over a fresh destination
a fault-free upload stores exactly the streamed bytes at the derived path
and reports the derived response; a second upload of the same bytes (any
accepted filename) then hits the existing-destination branch, reports the
identical response, leaves the single stored object untouched and discards
its own temp file.  When the destination already exists the staged temp
file is discarded and the same success is reported with no write; a rename
that fails because the destination now exists behaves identically; any
other rename failure is Internal. -/
theorem dedup_idempotent_spec (env : UploadEnv) (f g : MultipartField)
    (fs : Fs) (fn gn : String) (rest rg : List MultipartField)
    (h1 : f.name = some "file") (h2 : f.filename = some fn)
    (h3 : has_webp_extension fn = true)
    (hg1 : g.name = some "file") (hg2 : g.filename = some gn)
    (hg3 : has_webp_extension gn = true)
    (hgc : g.chunks = f.chunks) (hgs : g.streamErr = false)
    (h4 : env.tmpDirOk = true) (h5 : env.createNewOk = true)
    (hwf : env.writeFailAt = none) (hserr : f.streamErr = false)
    (hsize : totalSat f.chunks ≤ env.maxUploadBytes)
    (h6 : env.flushOk = true)
    (h7 : has_webp_signature (f.chunks.flatten.take 12) = true)
    (h8 : env.mkdirFinalOk = true) (h9 : env.existsErr = false)
    (hrm : env.removeOk = true) :
    (fs.files (relativePath env.year env.month
        (env.sha256hex f.chunks.flatten)) = none →
      env.rename = .renamed →
      (uploadHandler env (f :: rest) fs).1
        = .ok (mkResponse env
            (relativePath env.year env.month
              (env.sha256hex f.chunks.flatten))
            (env.sha256hex f.chunks.flatten) (totalSat f.chunks)) ∧
      ((uploadHandler env (f :: rest) fs).2).files
          (relativePath env.year env.month (env.sha256hex f.chunks.flatten))
        = some f.chunks.flatten ∧
      ((uploadHandler env (f :: rest) fs).2).tmpExists = false ∧
      (∀ p, p ≠ relativePath env.year env.month
          (env.sha256hex f.chunks.flatten) →
        ((uploadHandler env (f :: rest) fs).2).files p = fs.files p) ∧
      (uploadHandler env (g :: rg) (uploadHandler env (f :: rest) fs).2).1
        = .ok (mkResponse env
            (relativePath env.year env.month
              (env.sha256hex f.chunks.flatten))
            (env.sha256hex f.chunks.flatten) (totalSat f.chunks)) ∧
      ((uploadHandler env (g :: rg)
          (uploadHandler env (f :: rest) fs).2).2).files
          (relativePath env.year env.month (env.sha256hex f.chunks.flatten))
        = some f.chunks.flatten ∧
      ((uploadHandler env (g :: rg)
          (uploadHandler env (f :: rest) fs).2).2).tmpExists = false) ∧
    (∀ b, fs.files (relativePath env.year env.month
        (env.sha256hex f.chunks.flatten)) = some b →
      (uploadHandler env (f :: rest) fs).1
        = .ok (mkResponse env
            (relativePath env.year env.month
              (env.sha256hex f.chunks.flatten))
            (env.sha256hex f.chunks.flatten) (totalSat f.chunks)) ∧
      (∀ p, ((uploadHandler env (f :: rest) fs).2).files p = fs.files p) ∧
      ((uploadHandler env (f :: rest) fs).2).tmpExists = false) ∧
    (fs.files (relativePath env.year env.month
        (env.sha256hex f.chunks.flatten)) = none →
      env.rename = .alreadyExists →
      (uploadHandler env (f :: rest) fs).1
        = .ok (mkResponse env
            (relativePath env.year env.month
              (env.sha256hex f.chunks.flatten))
            (env.sha256hex f.chunks.flatten) (totalSat f.chunks)) ∧
      (∀ p, ((uploadHandler env (f :: rest) fs).2).files p = fs.files p) ∧
      ((uploadHandler env (f :: rest) fs).2).tmpExists = false) ∧
    (fs.files (relativePath env.year env.month
        (env.sha256hex f.chunks.flatten)) = none →
      env.rename = .otherErr →
      (uploadHandler env (f :: rest) fs).1 = .error .Internal) := by
  have hloop : streamLoop env.maxUploadBytes env.writeFailAt f.chunks
      f.streamErr 0 0 [] []
      = .done (totalSat f.chunks) (f.chunks.flatten.take 12)
          f.chunks.flatten := by
    rw [hwf, hserr]
    have := streamLoop_eval env.maxUploadBytes f.chunks 0 0 []
      (by omega) hsize
    simpa [totalSat] using this
  have hloopg : streamLoop env.maxUploadBytes env.writeFailAt g.chunks
      g.streamErr 0 0 [] []
      = .done (totalSat f.chunks) (f.chunks.flatten.take 12)
          f.chunks.flatten := by
    rw [hgc, hgs, hwf]
    rw [hwf, hserr] at hloop
    exact hloop
  refine ⟨?_, ?_, ?_, ?_⟩
  · intro hfind hrn
    have e1 := processField_renamed env f fs fn (totalSat f.chunks)
      (f.chunks.flatten.take 12) f.chunks.flatten h1 h2 h3 h4 h5 hloop h6
      h7 h8 h9 hfind hrn
    have hu1 : uploadHandler env (f :: rest) fs
        = (.ok (mkResponse env
            (relativePath env.year env.month
              (env.sha256hex f.chunks.flatten))
            (env.sha256hex f.chunks.flatten) (totalSat f.chunks)),
          { ({ fs with tmpExists := true }.store
              (relativePath env.year env.month
                (env.sha256hex f.chunks.flatten))
              f.chunks.flatten) with tmpExists := false }) := e1
    rw [hu1]
    dsimp only [uploadHandler]
    have hfind2 : ({ ({ fs with tmpExists := true }.store
        (relativePath env.year env.month (env.sha256hex f.chunks.flatten))
        f.chunks.flatten) with tmpExists := false } : Fs).files
        (relativePath env.year env.month (env.sha256hex f.chunks.flatten))
        = some f.chunks.flatten := by
      simp [Fs.store]
    have e2 := processField_dedup env g
      { ({ fs with tmpExists := true }.store
          (relativePath env.year env.month (env.sha256hex f.chunks.flatten))
          f.chunks.flatten) with tmpExists := false }
      gn (totalSat f.chunks) (f.chunks.flatten.take 12) f.chunks.flatten
      f.chunks.flatten hg1 hg2 hg3 h4 h5 hloopg h6 h7 h8 h9 hfind2
    rw [e2]
    refine ⟨rfl, by simp [Fs.store], rfl, ?_, rfl, ?_, ?_⟩
    · intro p hp
      simp [Fs.store, hp]
    · rw [hrm]
      simp [removeTmp, Fs.store]
    · rw [hrm, removeTmp_true_tmp]
  · intro b hfind
    have e1 := processField_dedup env f fs fn (totalSat f.chunks)
      (f.chunks.flatten.take 12) f.chunks.flatten b h1 h2 h3 h4 h5 hloop h6
      h7 h8 h9 hfind
    have hu1 : uploadHandler env (f :: rest) fs = _ := e1
    rw [hu1]
    refine ⟨rfl, ?_, ?_⟩
    · intro p
      rw [removeTmp_files]
    · rw [hrm, removeTmp_true_tmp]
  · intro hfind hrn
    have e1 := processField_already env f fs fn (totalSat f.chunks)
      (f.chunks.flatten.take 12) f.chunks.flatten h1 h2 h3 h4 h5 hloop h6
      h7 h8 h9 hfind hrn
    have hu1 : uploadHandler env (f :: rest) fs = _ := e1
    rw [hu1]
    refine ⟨rfl, ?_, ?_⟩
    · intro p
      rw [removeTmp_files]
    · rw [hrm, removeTmp_true_tmp]
  · intro hfind hrn
    have e1 := processField_renameErr env f fs fn (totalSat f.chunks)
      (f.chunks.flatten.take 12) f.chunks.flatten h1 h2 h3 h4 h5 hloop h6
      h7 h8 h9 hfind hrn
    have hu1 : uploadHandler env (f :: rest) fs = _ := e1
    rw [hu1]

/-- C1 witness: the theorem at the fixture upload over an empty store: the
first upload commits the bytes, and a second upload of the same bytes under
filename dup.webp reports the identical response while the single stored
object is untouched. -/
theorem dedup_idempotent_spec_witness :
    (uploadHandler happyEnv [okField] emptyFs).1
      = .ok (mkResponse happyEnv
          (relativePath happyEnv.year happyEnv.month
            (happyEnv.sha256hex okField.chunks.flatten))
          (happyEnv.sha256hex okField.chunks.flatten)
          (totalSat okField.chunks)) ∧
    ((uploadHandler happyEnv [okField] emptyFs).2).files
        (relativePath happyEnv.year happyEnv.month
          (happyEnv.sha256hex okField.chunks.flatten))
      = some okField.chunks.flatten ∧
    (uploadHandler happyEnv [{ okField with filename := some "dup.webp" }]
        (uploadHandler happyEnv [okField] emptyFs).2).1
      = .ok (mkResponse happyEnv
          (relativePath happyEnv.year happyEnv.month
            (happyEnv.sha256hex okField.chunks.flatten))
          (happyEnv.sha256hex okField.chunks.flatten)
          (totalSat okField.chunks)) ∧
    ((uploadHandler happyEnv
        [{ okField with filename := some "dup.webp" }]
        (uploadHandler happyEnv [okField] emptyFs).2).2).files
        (relativePath happyEnv.year happyEnv.month
          (happyEnv.sha256hex okField.chunks.flatten))
      = some okField.chunks.flatten := by
  have h := (dedup_idempotent_spec happyEnv okField
    { okField with filename := some "dup.webp" } emptyFs "ok.webp"
    "dup.webp" [] [] rfl rfl (by decide) rfl rfl (by decide) rfl rfl rfl rfl
    rfl rfl (by decide) rfl (by decide) rfl rfl rfl).1 rfl rfl
  exact ⟨h.1, h.2.1, h.2.2.2.2.1, h.2.2.2.2.2.1⟩
